import Mathlib

/-!
Shallow embedding of `vprojkit/main.py`, a translator from Visual Studio
build descriptions (.sln / .vcxproj) to CMake-style declarations.

Python strings are modelled as Lean `String` (working on `String.data`,
a `List Char`, where a scan is needed).  Fallible code (attribute/element
lookups that raise `AttributeError` / `KeyError` / `ValueError` in Python)
is modelled with `Option`: `none` means the run aborts with an unhandled
exception.  The XML tree delivered by the (excluded, third-party) XML
parser is modelled by the inductive `XmlNode`, exposing exactly the
interface the program consumes: tag, attributes, text, child list.
Filesystem reads (excluded I/O mechanics) are modelled by a finite map
`FS` from paths to solution lines / parsed project roots, and
`os.path.abspath` is passed in as a function parameter.  Path helpers
(`os.path.dirname`, `os.path.join`, `os.path.splitext`) are modelled on
their posixpath definitions, and Python whitespace sets on their ASCII
part.  Regular-expression scans are translated into explicit character
scanners that implement the same matching discipline as the source
patterns.
-/

/-! ## Small string helpers (Python primitives used by the source) -/

/-- ASCII part of Python's `str.strip` / `\s` whitespace set. -/
def isPySpace (c : Char) : Bool :=
  c = ' ' ∨ c = '\t' ∨ c = '\n' ∨ c = '\r' ∨ c = '\x0b' ∨ c = '\x0c'

/-- Python `str.strip()` (ASCII whitespace). -/
def pyStrip (s : String) : String :=
  String.mk (((s.data.dropWhile isPySpace).reverse.dropWhile isPySpace).reverse)

/-- `p` is a prefix of `s`, character by character. -/
def isPrefixChars : List Char → List Char → Bool
  | [], _ => true
  | _ :: _, [] => false
  | a :: as, b :: bs => a = b && isPrefixChars as bs

/-- Python `s.startswith(p)`. -/
def pyStartswith (p s : String) : Bool := isPrefixChars p.data s.data

/-- Python `s.endswith(p)`. -/
def pyEndswith (p s : String) : Bool := isPrefixChars p.data.reverse s.data.reverse

/-- Index of the last occurrence of `c`, if any. -/
def rfindChar (c : Char) : List Char → Option Nat
  | [] => none
  | a :: rest =>
    match rfindChar c rest with
    | some i => some (i + 1)
    | none => if a = c then some 0 else none

/-- posixpath `dirname`: everything before the last `/`, trailing slashes
stripped unless the result is all slashes; `""` when there is no slash. -/
def dirname (p : String) : String :=
  match rfindChar '/' p.data with
  | none => ""
  | some i =>
    let head := p.data.take (i + 1)
    if head.any (fun c => c ≠ '/') then
      String.mk ((head.reverse.dropWhile (fun c => c = '/')).reverse)
    else
      String.mk head

/-- posixpath `join` for two components, as the source uses it. -/
def pjoin (a b : String) : String :=
  if pyStartswith "/" b then b
  else if a = "" ∨ pyEndswith "/" a then a ++ b
  else a ++ "/" ++ b

/-- posixpath `splitext`: the extension part (`""` when the basename has no
dot after a non-dot character). -/
def splitext_ext (p : String) : String :=
  match rfindChar '.' p.data with
  | none => ""
  | some di =>
    let fi := match rfindChar '/' p.data with
      | none => 0
      | some si => si + 1
    if fi ≤ di ∧ ((p.data.drop fi).take (di - fi)).any (fun c => c ≠ '.') then
      String.mk (p.data.drop di)
    else ""

/-- Python `"…".split(";")` on the character level: split at every `;`,
keeping empty pieces (so `""` splits to `[""]`). -/
def splitSemi : List Char → List (List Char)
  | [] => [[]]
  | c :: rest =>
    if c = ';' then [] :: splitSemi rest
    else
      match splitSemi rest with
      | [] => [[c]]
      | h :: t => (c :: h) :: t

/-! ## The macro-expansion scan

The source substitutes every match of the pattern `\$\(([^)]*)\)` in a
string by a replacement computed from the captured group.  `splitAtClose`
captures the `[^)]*\)` part: the characters before the first `)` and the
rest after it.  `expandLoop` is the whole left-to-right, non-overlapping
`re.sub` scan, written with a fuel argument so that it is structural;
since every step consumes at least one character and one unit of fuel,
fuel `l.length` (what `expand_macros` passes) never runs out. -/

def splitAtClose : List Char → Option (List Char × List Char)
  | [] => none
  | c :: rest =>
    if c = ')' then some ([], rest)
    else
      match splitAtClose rest with
      | some (inner, after) => some (c :: inner, after)
      | none => none

def expandLoop (f : String → String) : Nat → List Char → List Char
  | _, [] => []
  | 0, l => l
  | _ + 1, [c] => [c]
  | fuel + 1, c1 :: c2 :: rest =>
    if c1 = '$' ∧ c2 = '(' then
      match splitAtClose rest with
      | some (inner, after) => (f (String.mk inner)).data ++ expandLoop f fuel after
      | none => c1 :: c2 :: expandLoop f fuel rest
    else c1 :: expandLoop f fuel (c2 :: rest)

/-- Whether the scanned string holds at least one `$(…)` token (a match of
the source pattern `\$\(([^)]*)\)`). -/
def hasMacroToken : List Char → Bool
  | [] => false
  | [_] => false
  | c1 :: c2 :: rest =>
    if c1 = '$' ∧ c2 = '(' then (splitAtClose rest).isSome || hasMacroToken rest
    else hasMacroToken (c2 :: rest)

/-! ## Data model (`TargetType`, `Target`, `Expectation`) -/

inductive TargetType where
  | EXECUTABLE
  | STATIC_LIBRARY
  | SHARED_LIBRARY
deriving DecidableEq, Repr

/-- `Expectation = namedtuple("Expectation", "tag, text")`. -/
structure Expectation where
  tag : String
  text : String
deriving DecidableEq, Repr

/-- One translated build target (`class Target`).  The Python `vs_macros`
dict always holds the keys `ProjectDir` and `SolutionDir`; `dict.get`
returns `None` both for a missing key and for the `None` value that
`SolutionDir` gets for a standalone project, so the dict is modelled by
the two fields below plus `get_macro_expansion`. -/
structure Target where
  name : Option String
  type : Option TargetType
  include_directories : List String
  compile_definitions : List String
  vsProjectDir : String
  vsSolutionDir : Option String
  unexpected : List (Expectation × String)
deriving DecidableEq, Repr

/-- The `mpath` lambda in `Target.__init__`: append a trailing backslash
to a non-empty path, keep a falsy (empty) one unchanged. -/
def mpath (p : String) : String := if p = "" then p else p ++ "\\"

/-- `Target.__init__(project_path, sln_dir)`. -/
def Target.init (project_path : String) (sln_dir : Option String) : Target :=
  { name := none
    type := none
    include_directories := []
    compile_definitions := []
    vsProjectDir := mpath (dirname project_path)
    vsSolutionDir := sln_dir.map mpath
    unexpected := [] }

/-- `Target.get_macro_expansion`: `self.vs_macros.get(macro)`. -/
def Target.get_macro_expansion (t : Target) (m : String) : Option String :=
  if m = "ProjectDir" then some t.vsProjectDir
  else if m = "SolutionDir" then t.vsSolutionDir
  else none

/-- `Target.add_unexpected`. -/
def Target.add_unexpected (t : Target) (ex : Expectation) (actual : String) :
    Target :=
  { t with unexpected := t.unexpected ++ [(ex, actual)] }

/-! ## The XML tree interface the program consumes -/

/-- A parsed XML element: tag, attribute list, text, children.  This is the
generic tree interface of `xml.etree.ElementTree` as used by the source:
`node.tag`, `node.get(attr)`, `node.text`, iteration, `node.find(tag)`. -/
inductive XmlNode where
  | mk (tag : String) (attrs : List (String × String)) (text : Option String)
      (children : List XmlNode)

def XmlNode.tag : XmlNode → String
  | .mk t _ _ _ => t

def XmlNode.attrs : XmlNode → List (String × String)
  | .mk _ a _ _ => a

def XmlNode.text : XmlNode → Option String
  | .mk _ _ x _ => x

def XmlNode.children : XmlNode → List XmlNode
  | .mk _ _ _ c => c

/-- `node.get(key)`: the attribute's value, `None` when absent. -/
def XmlNode.get (n : XmlNode) (key : String) : Option String :=
  (n.attrs.find? (fun kv => kv.1 = key)).map (fun kv => kv.2)

/-- `node.find(tag)`: the first direct child with the given tag. -/
def XmlNode.find (n : XmlNode) (t : String) : Option XmlNode :=
  n.children.find? (fun c => XmlNode.tag c = t)

/-! ## Program constants -/

/-- `Program.node_conditions` as a membership test is used in
`node_applies`; the second member, spelled out. -/
def releaseCondition : String :=
  "\x27$(Configuration)|$(Platform)\x27==\x27Release|x64\x27"

/-- `Program.cl_expectations`. -/
def cl_expectations : List Expectation :=
  [ { tag := "Optimization", text := "MaxSpeed" }
  , { tag := "RuntimeLibrary", text := "MultiThreadedDLL" }
  , { tag := "PrecompiledHeader", text := "" } ]

/-- `Program.link_expectations`. -/
def link_expectations : List Expectation :=
  [ { tag := "OutputFile", text := "$(OutDir)$(ProjectName)$(RADF_BUILD_VER).dll" }
  , { tag := "ImportLibrary",
      text := "$(SolutionDir)lib\\$(RADF_ARCH_RELEASE)\\$(ProjectName)$(RADF_BUILD_VER).lib" }
  , { tag := "TargetMachine", text := "MachineX64" } ]

/-- `Program._target_type_from_xml_mapping` followed by the `[type]`
lookup of `target_type_from_xml`: `none` is Python's fatal `KeyError`.
The lookup's argument is `node.find(…).text`, which may be `None`; a
`None` key is likewise absent from the mapping, hence `Option String`. -/
def target_type_from_xml (type : Option String) : Option TargetType :=
  if type = some "DynamicLibrary" then some TargetType.SHARED_LIBRARY else none

/-- `Program.node_applies`: `node.get("Condition") in self.node_conditions`. -/
def node_applies (cond : Option String) : Bool :=
  cond = none || cond = some releaseCondition

/-! ## Macro expansion (`expand_macros` / `expand_macro`) -/

/-- `Program.expand_macro(macro)`, with the per-run flag and the current
target passed explicitly: the table hit returns the expansion, every
fallback returns the original `$(name)` token. -/
def expandMacro (expandOn : Bool) (t : Target) (m : String) : String :=
  if expandOn then
    match Target.get_macro_expansion t m with
    | some expansion => expansion
    | none => "$(" ++ m ++ ")"
  else "$(" ++ m ++ ")"

/-- `Program.expand_macros(text)`: `re.sub` of `\$\(([^)]*)\)` with
`expand_macro` of the captured group. -/
def expand_macros (expandOn : Bool) (t : Target) (text : String) : String :=
  String.mk (expandLoop (expandMacro expandOn t) text.data.length text.data)

/-! ## List processing -/

/-- `Program.parse_list(text)`: `text.split(";")`. -/
def parse_list (text : String) : List String :=
  (splitSemi text.data).map String.mk

/-- `Program.process_list(node)`.  The argument is the result of a
`find`, so it can be `None`; Python then dies on `node.text`, and dies
again on `text.strip()` when the element is empty (`text is None`) —
both are the `none` result here. -/
def process_list (expandOn : Bool) (t : Target) (node : Option XmlNode) :
    Option (List String) :=
  node.bind (fun n =>
    (XmlNode.text n).map (fun txt =>
      ((parse_list (pyStrip txt)).filter
          (fun d => !(pyStartswith "%(" d))).map (expand_macros expandOn t)))

/-! ## Expectation checking -/

/-- `Program.check_expectations(node, expectations, ns)`: for each
expectation, read the named child's stripped text (a missing child or a
`None` text is a fatal `AttributeError`, hence `none`), and record a
mismatch on the target. -/
def check_expectations (node : XmlNode) (exps : List Expectation) (ns : String)
    (t : Target) : Option Target :=
  List.foldlM
    (fun acc ex =>
      (XmlNode.find node (ns ++ ex.tag)).bind (fun e =>
        (XmlNode.text e).map (fun txt =>
          if pyStrip txt ≠ ex.text then Target.add_unexpected acc ex (pyStrip txt)
          else acc)))
    t exps

/-! ## Namespace discovery (`_re_project_xmlns`) -/

/-- The characters before the first closing brace, and the rest after it. -/
def splitAtCloseBrace : List Char → Option (List Char × List Char)
  | [] => none
  | c :: rest =>
    if c = '\x7d' then some ([], rest)
    else
      match splitAtCloseBrace rest with
      | some (inner, after) => some (c :: inner, after)
      | none => none

/-- The match of `(\{[^}]*\})Project` at the start of the root tag: the
braced namespace, or `none` (Python then dies subscripting the failed
match — fatal). -/
def extract_xmlns (tag : String) : Option String :=
  match tag.data with
  | '\x7b' :: rest =>
    (splitAtCloseBrace rest).bind (fun ia =>
      if pyStartswith "Project" (String.mk ia.2) then
        some ("\x7b" ++ String.mk ia.1 ++ "\x7d")
      else none)
  | _ => none

/-! ## The solution scanner (`_re_sln_project_line`) -/

/-- Expect the literal `p` as a prefix, return the rest. -/
def eatStr (p : String) (l : List Char) : Option (List Char) :=
  if isPrefixChars p.data l then some (l.drop p.data.length) else none

/-- Expect one `\s` character (ASCII part), return the rest. -/
def eatOneWS : List Char → Option (List Char)
  | [] => none
  | c :: rest => if isPySpace c then some rest else none

/-- The character class `[-0-9A-F]` of the solution-line pattern. -/
def isGuidChar (c : Char) : Bool :=
  c = '-' || ('0' ≤ c && c ≤ '9') || ('A' ≤ c && c ≤ 'F')

/-- The anchored match of `_re_sln_project_line` against one line:
`Project("{` GUID-shaped token `}") ` one space `=` one space `"` name
`", ` one space `"` path ending in `.vcxproj` `"`, trailing text free.
Returns the captured `project_path` group.  Each `[^"]*` piece runs to
the next quote (it cannot match one), and the class pieces are greedy
with no backtracking possible, so the scan below is the regex match. -/
def matchSlnLine (line : String) : Option String := do
  let l ← eatStr "Project(\"\x7b" line.data
  let l := l.dropWhile isGuidChar
  let l ← eatStr "\x7d\")" l
  let l ← eatOneWS l
  let l ← eatStr "=" l
  let l ← eatOneWS l
  let l ← eatStr "\"" l
  let l := l.dropWhile (fun c => c ≠ '\"')
  let l ← eatStr "\"," l
  let l ← eatOneWS l
  let l ← eatStr "\"" l
  let cap := l.takeWhile (fun c => c ≠ '\"')
  let l := l.dropWhile (fun c => c ≠ '\"')
  let _ ← eatStr "\"" l
  if pyEndswith ".vcxproj" (String.mk cap) then some (String.mk cap) else none

/-- The loop body of `gather_projects_from_sln`: scan lines in order,
join each captured relative path onto the solution's directory. -/
def slnProjectsLoop (sln_dir : String) : List String → List String
  | [] => []
  | line :: rest =>
    match matchSlnLine line with
    | some p => pjoin sln_dir p :: slnProjectsLoop sln_dir rest
    | none => slnProjectsLoop sln_dir rest

/-- `Program.gather_projects_from_sln(sln_path)`, over the file's lines. -/
def gather_projects_from_sln (sln_path : String) (lines : List String) :
    List String :=
  slnProjectsLoop (dirname sln_path) lines

/-! ## The project tree walker (`process_project`) -/

/-- One iteration of the `for node in …` loop of `process_project`,
acting on the target under construction.  `none` is a fatal lookup
failure (`AttributeError` on a failed `find`, `KeyError` from
`target_type_from_xml`). -/
def process_node (expandOn : Bool) (ns : String) (t : Target) (node : XmlNode) :
    Option Target :=
  if XmlNode.tag node = ns ++ "PropertyGroup" then
    match XmlNode.get node "Label" with
    | some lbl =>
      if lbl = "Globals" then
        (XmlNode.find node (ns ++ "ProjectName")).map
          (fun e => { t with name := XmlNode.text e })
      else if lbl = "Configuration" then
        (XmlNode.find node (ns ++ "ConfigurationType")).bind (fun e =>
          (target_type_from_xml (XmlNode.text e)).map
            (fun ty => { t with type := some ty }))
      else some t
    | none => some t
  else if XmlNode.tag node = ns ++ "ItemDefinitionGroup" then
    (XmlNode.find node (ns ++ "ClCompile")).bind (fun cl =>
      (process_list expandOn t
          (XmlNode.find cl (ns ++ "AdditionalIncludeDirectories"))).bind (fun incs =>
        let t1 := { t with include_directories := incs }
        (process_list expandOn t1
            (XmlNode.find cl (ns ++ "PreprocessorDefinitions"))).bind (fun defs =>
          let t2 := { t1 with compile_definitions := defs }
          (check_expectations cl cl_expectations ns t2).bind (fun t3 =>
            if t3.type ≠ some TargetType.STATIC_LIBRARY then
              (XmlNode.find node (ns ++ "Link")).bind (fun link =>
                check_expectations link link_expectations ns t3)
            else some t3))))
  else some t

/-- `Program.process_project(root, path_info)` up to the target it
builds: create the target (`start_new_target`), discover the namespace,
then walk the applying direct children.  In the source the fresh target
is appended to `self.targets` first and mutated in place; since every
failure aborts the whole run before any output, building the target
value and appending it on success is observationally the same. -/
def process_project_target (expandOn : Bool) (root : XmlNode)
    (path_info : String × Option String) : Option Target :=
  (extract_xmlns (XmlNode.tag root)).bind (fun ns =>
    List.foldlM (process_node expandOn ns) (Target.init path_info.1 path_info.2)
      ((XmlNode.children root).filter
        (fun c => node_applies (XmlNode.get c "Condition"))))

/-- `Program.process_project`, as a transformation of the target list. -/
def process_project (expandOn : Bool) (root : XmlNode)
    (path_info : String × Option String) (ts : List Target) :
    Option (List Target) :=
  (process_project_target expandOn root path_info).map (fun t => ts ++ [t])

/-! ## The emitter (`write_output`) -/

/-- Python's rendering of a value inside an f-string: `None` prints as
`"None"`. -/
def pyStr : Option String → String
  | some s => s
  | none => "None"

/-- `Program.to_cmake_path`: `path.replace("\\", "/")`. -/
def to_cmake_path (path : String) : String :=
  String.mk (path.data.map (fun c => if c = '\\' then '/' else c))

/-- Python `sep.join(items)`. -/
def joinSep (sep : String) : List String → String
  | [] => ""
  | [x] => x
  | x :: xs => x ++ sep ++ joinSep sep xs

/-- The text the `for target in self.targets` body of `write_output`
writes for one target. -/
def write_target (t : Target) : String :=
  (match t.type with
    | some TargetType.EXECUTABLE => "\nadd_executable(" ++ pyStr t.name
    | some TargetType.SHARED_LIBRARY => "add_library(" ++ pyStr t.name ++ " SHARED"
    | some TargetType.STATIC_LIBRARY => "add_library(" ++ pyStr t.name ++ " STATIC"
    | none => "")
  ++ ")\n"
  ++ (if t.include_directories ≠ [] then
        "target_include_directories(" ++ pyStr t.name ++ " PRIVATE\n  "
        ++ joinSep "\n  " (t.include_directories.map to_cmake_path) ++ "\n)\n"
      else "")
  ++ (if t.compile_definitions ≠ [] then
        "target_compile_definitions(" ++ pyStr t.name ++ " PRIVATE\n  "
        ++ joinSep "\n  " t.compile_definitions ++ "\n)\n"
      else "")
  ++ joinSep "" (t.unexpected.map (fun ex =>
        "# " ++ pyStr t.name ++ ": expected <" ++ ex.1.tag ++ "> of \x27"
        ++ ex.1.text ++ "\x27 was actually \x27" ++ ex.2 ++ "\x27\n"))

/-- `Program.write_output`: the loop over `self.targets`, emitting the
whole output text. -/
def write_output : List Target → String
  | [] => ""
  | t :: rest => write_target t ++ write_output rest

/-! ## Input gathering and the whole run -/

/-- The filesystem as the program sees it: solution files (as line
lists) and project files (as parsed XML roots), keyed by path. -/
structure FS where
  slns : List (String × List String)
  projs : List (String × XmlNode)

def FS.findSln (fs : FS) (p : String) : Option (List String) :=
  (fs.slns.find? (fun kv => kv.1 = p)).map (fun kv => kv.2)

def FS.findProj (fs : FS) (p : String) : Option XmlNode :=
  (fs.projs.find? (fun kv => kv.1 = p)).map (fun kv => kv.2)

/-- `Program.gather_input_files`, with `os.path.abspath` (excluded I/O
mechanics, cwd-dependent) passed in as a function.  A `.vcxproj` input
yields itself with no owning solution; a `.sln` input yields its
referenced projects, each owned by the solution's directory; any other
extension raises `ValueError` — fatal, `none`.  A missing solution file
is a fatal open failure. -/
def gather_input_files (abspath : String → String) (fs : FS) :
    List String → Option (List (String × Option String))
  | [] => some []
  | p :: rest => do
    let path := abspath p
    let tail ← gather_input_files abspath fs rest
    if splitext_ext path = ".vcxproj" then
      some ((path, none) :: tail)
    else if splitext_ext path = ".sln" then do
      let lines ← FS.findSln fs path
      some (((gather_projects_from_sln path lines).map
        (fun pp => (pp, some (dirname path)))) ++ tail)
    else none

/-- `Program.read_project(project)`: parse the project file (fatal if
missing) and process it. -/
def read_project (fs : FS) (expandOn : Bool) (ts : List Target)
    (project : String × Option String) : Option (List Target) :=
  (FS.findProj fs project.1).bind (fun root =>
    process_project expandOn root project ts)

/-- `Program.run`: gather the inputs, read every project in order, then
write the output.  `none` means the run died with an unhandled exception
before `write_output`, so nothing was emitted. -/
def Program.run (expandOn : Bool) (abspath : String → String) (fs : FS)
    (inputs : List String) : Option String := do
  let ins ← gather_input_files abspath fs inputs
  let ts ← List.foldlM (read_project fs expandOn) [] ins
  some (write_output ts)

/-! ## Lemmas about the expansion scan -/

theorem splitAtClose_eq : ∀ {l inner after : List Char},
    splitAtClose l = some (inner, after) → l = inner ++ ')' :: after := by
  intro l
  induction l with
  | nil => intro inner after h; simp [splitAtClose] at h
  | cons c rest ih =>
    intro inner after h
    by_cases hc : c = ')'
    · subst hc
      simp [splitAtClose] at h
      obtain ⟨h1, h2⟩ := h
      subst h1; subst h2
      simp
    · simp only [splitAtClose, if_neg hc] at h
      cases hsc : splitAtClose rest with
      | none => rw [hsc] at h; simp at h
      | some p =>
        obtain ⟨a, b⟩ := p
        rw [hsc] at h
        simp at h
        obtain ⟨h1, h2⟩ := h
        subst h1; subst h2
        simp [ih hsc]

theorem splitAtClose_of_no_close (inner after : List Char) (h : ')' ∉ inner) :
    splitAtClose (inner ++ ')' :: after) = some (inner, after) := by
  induction inner with
  | nil => simp [splitAtClose]
  | cons c cs ih =>
    simp only [List.mem_cons, not_or] at h
    have hc : c ≠ ')' := fun hp => h.1 hp.symm
    simp [splitAtClose, hc, ih h.2]

/-- A fallback replacement function (every macro turned back into its own
`$(…)` token) makes the whole scan the identity, for any fuel. -/
theorem expandLoop_fallback_id (f : String → String)
    (hf : ∀ m, f m = "$(" ++ m ++ ")") :
    ∀ (fuel : Nat) (l : List Char), expandLoop f fuel l = l := by
  intro fuel
  induction fuel with
  | zero => intro l; cases l <;> simp [expandLoop]
  | succ n ih =>
    intro l
    match l with
    | [] => simp [expandLoop]
    | [c] => simp [expandLoop]
    | c1 :: c2 :: rest =>
      by_cases h12 : c1 = '$' ∧ c2 = '('
      · obtain ⟨h1, h2⟩ := h12
        subst h1; subst h2
        simp only [expandLoop, if_pos (And.intro rfl rfl)]
        cases hsc : splitAtClose rest with
        | none => simp [ih]
        | some p =>
          obtain ⟨inner, after⟩ := p
          rw [splitAtClose_eq hsc]
          simp [hf, ih, String.data_append]
      · simp only [expandLoop, if_neg h12]
        simp [ih]

/-- A string with no `$(…)` token is returned unchanged by the scan,
whatever the replacement function. -/
theorem expandLoop_noToken_id (f : String → String) :
    ∀ (fuel : Nat) (l : List Char), hasMacroToken l = false →
      expandLoop f fuel l = l := by
  intro fuel
  induction fuel with
  | zero => intro l _; cases l <;> simp [expandLoop]
  | succ n ih =>
    intro l hl
    match l with
    | [] => simp [expandLoop]
    | [c] => simp [expandLoop]
    | c1 :: c2 :: rest =>
      by_cases h12 : c1 = '$' ∧ c2 = '('
      · simp only [hasMacroToken, if_pos h12, Bool.or_eq_false_iff] at hl
        obtain ⟨hs, hr⟩ := hl
        simp only [expandLoop, if_pos h12]
        cases hsc : splitAtClose rest with
        | none => simp [ih _ hr]
        | some p => rw [hsc] at hs; simp at hs
      · simp only [hasMacroToken, if_neg h12] at hl
        simp only [expandLoop, if_neg h12]
        simp [ih _ hl]

/-- The scan of exactly one `$(m)` token (no `)` inside `m`) is the
replacement function applied to `m`. -/
theorem expandLoop_one_token (f : String → String) (n : Nat) (m : String)
    (h : ')' ∉ m.data) :
    expandLoop f (n + 1) ('$' :: '(' :: (m.data ++ [')'])) = (f m).data := by
  have hsc := splitAtClose_of_no_close m.data [] h
  simp only [expandLoop, if_pos (And.intro rfl rfl), hsc]
  simp [expandLoop]

/-- `expand_macros` on the single token `$(m)`: the per-macro
`expand_macro` result. -/
theorem expand_macros_one_token (expandOn : Bool) (t : Target) (m : String)
    (h : ')' ∉ m.data) :
    expand_macros expandOn t ("$(" ++ m ++ ")") = expandMacro expandOn t m := by
  have hdata : ("$(" ++ m ++ ")").data = '$' :: '(' :: (m.data ++ [')']) := by
    simp [String.data_append]
  have hlen : ('$' :: '(' :: (m.data ++ [')'])).length = (m.data.length + 2) + 1 := by
    simp
  unfold expand_macros
  rw [hdata, hlen, expandLoop_one_token _ _ _ h]

/-- `expand_macros` with expansion disabled is the identity. -/
theorem expand_macros_disabled (t : Target) (s : String) :
    expand_macros false t s = s := by
  unfold expand_macros
  rw [expandLoop_fallback_id (expandMacro false t) (fun m => rfl)]

/-- `expand_macros` on a token-free string is the identity. -/
theorem expand_macros_noToken (expandOn : Bool) (t : Target) (s : String)
    (h : hasMacroToken s.data = false) :
    expand_macros expandOn t s = s := by
  unfold expand_macros
  rw [expandLoop_noToken_id _ _ _ h]

/-! ## Concrete fixtures used by several claims -/

/-- A sample XML namespace prefix, as `extract_xmlns` discovers it. -/
def nsP : String := "\x7bm\x7d"

/-- Tag qualified with the sample namespace, as the walker builds them:
`f"{ns}Tag"`. -/
def nsTag (s : String) : String := nsP ++ s

/-- A leaf element with text. -/
def xmlLeaf (tag : String) (txt : String) : XmlNode :=
  XmlNode.mk (nsTag tag) [] (some txt) []

/-- A `ClCompile` settings block whose expectation properties all match
the fixed table, with no include directories (only the inherit
placeholder) and preprocessor definitions `FOO;BAR`. -/
def demoClCompile : XmlNode :=
  XmlNode.mk (nsTag "ClCompile") [] none
    [ xmlLeaf "AdditionalIncludeDirectories" "%(AdditionalIncludeDirectories)"
    , xmlLeaf "PreprocessorDefinitions" "FOO;BAR"
    , xmlLeaf "Optimization" "MaxSpeed"
    , xmlLeaf "RuntimeLibrary" "MultiThreadedDLL"
    , xmlLeaf "PrecompiledHeader" "" ]

/-- A `Link` settings block whose expectation properties all match the
fixed table. -/
def demoLink : XmlNode :=
  XmlNode.mk (nsTag "Link") [] none
    [ xmlLeaf "OutputFile" "$(OutDir)$(ProjectName)$(RADF_BUILD_VER).dll"
    , xmlLeaf "ImportLibrary"
        "$(SolutionDir)lib\\$(RADF_ARCH_RELEASE)\\$(ProjectName)$(RADF_BUILD_VER).lib"
    , xmlLeaf "TargetMachine" "MachineX64" ]

/-- The parsed root of `app.vcxproj`: name "App", ConfigurationType
"DynamicLibrary", the `demoClCompile`/`demoLink` item definitions. -/
def demoRoot : XmlNode :=
  XmlNode.mk (nsTag "Project") [] none
    [ XmlNode.mk (nsTag "PropertyGroup") [("Label", "Globals")] none
        [xmlLeaf "ProjectName" "App"]
    , XmlNode.mk (nsTag "PropertyGroup")
        [("Label", "Configuration"), ("Condition", releaseCondition)] none
        [xmlLeaf "ConfigurationType" "DynamicLibrary"]
    , XmlNode.mk (nsTag "ItemDefinitionGroup") [("Condition", releaseCondition)] none
        [demoClCompile, demoLink] ]

/-- The lines of `demo.sln`: exactly one line matches the project
pattern and references `sub/app.vcxproj`. -/
def demoSlnLines : List String :=
  [ "Microsoft Visual Studio Solution File, Format Version 12.00"
  , "Project(\"\x7b8BC9CEB8-8B4A-11D0-8D11-00A0C91BC942\x7d\") = \"App\", \"sub/app.vcxproj\", \"\x7bAAA\x7d\""
  , "EndProject" ]

/-- The filesystem of the end-to-end scenario. -/
def demoFS : FS :=
  { slns := [("/work/demo.sln", demoSlnLines)]
  , projs := [("/work/sub/app.vcxproj", demoRoot)] }

/-! ## Claim C1 -/

/-- C1: End-to-end.  For a run whose input is a solution file containing
exactly one line matching the project pattern and referencing
`sub/app.vcxproj`, where `app.vcxproj` (under recognized conditions)
declares ProjectName "App", ConfigurationType "DynamicLibrary", no
include directories, and PreprocessorDefinitions "FOO;BAR", the emitted
output is exactly a SHARED target-creation line for "App"
(`add_library(App SHARED)`) followed by a compile-definitions block
listing FOO then BAR — in particular it contains no include-directories
block. -/
theorem C1_end_to_end :
    Program.run true (fun p => p) demoFS ["/work/demo.sln"] =
      some "add_library(App SHARED)\ntarget_compile_definitions(App PRIVATE\n  FOO\n  BAR\n)\n" := by
  decide

/-! ## Claim C2 -/

/-- A minimal project whose `ConfigurationType` text is `s`: used to
show that an unmapped configuration type aborts the whole run. -/
def rootConfigType (s : String) : XmlNode :=
  XmlNode.mk (nsTag "Project") [] none
    [ XmlNode.mk (nsTag "PropertyGroup") [("Label", "Configuration")] none
        [xmlLeaf "ConfigurationType" s] ]

def fsConfigType (s : String) : FS :=
  { slns := [], projs := [("/work/app.vcxproj", rootConfigType s)] }

/-- Right-association of a six-fold append, matching the shape of
`write_target`. -/
theorem strAppend_assoc7 (a b c d e f g : String) :
    a ++ b ++ c ++ d ++ e ++ f ++ g = a ++ (b ++ (c ++ (d ++ (e ++ (f ++ g))))) := by
  simp [String.append_assoc]

/-- C2: Every project whose ConfigurationType is "DynamicLibrary" maps
to SharedLibrary, and a SharedLibrary target's creation declaration
carries the SHARED qualifier; every other ConfigurationType string —
"Application" and "StaticLibrary" included — is absent from the mapping
table, so its lookup fails (`none` = the Python `KeyError`), and a run
over a project with such a configuration type produces no output at all
(`Program.run = none`: the process dies before `write_output`). -/
theorem C2_kind_mapping (s : String) (hs : s ≠ "DynamicLibrary") :
    target_type_from_xml (some "DynamicLibrary") = some TargetType.SHARED_LIBRARY
    ∧ (∀ t : Target, t.type = some TargetType.SHARED_LIBRARY →
        ∃ rest, write_target t
          = "add_library(" ++ (pyStr t.name ++ (" SHARED" ++ (")\n" ++ rest))))
    ∧ target_type_from_xml (some "Application") = none
    ∧ target_type_from_xml (some "StaticLibrary") = none
    ∧ target_type_from_xml (some s) = none
    ∧ Program.run true (fun p => p) (fsConfigType s) ["/work/app.vcxproj"] = none := by
  have hmap : target_type_from_xml (some s) = none := by
    simp [target_type_from_xml, hs]
  refine ⟨by decide, ?_, by decide, by decide, hmap, ?_⟩
  · intro t ht
    simp only [write_target, ht]
    exact ⟨_, strAppend_assoc7 _ _ _ _ _ _ _⟩
  · simp [Program.run, gather_input_files, read_project, FS.findProj, fsConfigType,
      process_project, process_project_target, process_node, rootConfigType, xmlLeaf,
      nsTag, nsP, extract_xmlns, splitAtCloseBrace, pyStartswith, isPrefixChars,
      node_applies, XmlNode.tag, XmlNode.get, XmlNode.find, XmlNode.children,
      XmlNode.attrs, XmlNode.text, splitext_ext, rfindChar, hmap, List.foldlM,
      List.find?, List.filter, Target.init]

/-- Witness for C2 at the concrete unmapped string "Application". -/
theorem C2_kind_mapping_witness :
    target_type_from_xml (some "DynamicLibrary") = some TargetType.SHARED_LIBRARY
    ∧ (∀ t : Target, t.type = some TargetType.SHARED_LIBRARY →
        ∃ rest, write_target t
          = "add_library(" ++ (pyStr t.name ++ (" SHARED" ++ (")\n" ++ rest))))
    ∧ target_type_from_xml (some "Application") = none
    ∧ target_type_from_xml (some "StaticLibrary") = none
    ∧ target_type_from_xml (some "Application") = none
    ∧ Program.run true (fun p => p) (fsConfigType "Application") ["/work/app.vcxproj"] = none :=
  C2_kind_mapping "Application" (by decide)

/-! ## Claim C3 -/

/-- C3: Condition filtering is binary.  `process_project` walks exactly
the direct children `c` of the root with
`node_applies (c.get "Condition") = true` (see its definition), and a
node applies if and only if its `Condition` attribute is absent or is
exactly the one recognized literal
`'$(Configuration)|$(Platform)'=='Release|x64'`; every other condition
string is skipped. -/
theorem C3_condition_filtering (cond : Option String) :
    node_applies cond = true ↔ (cond = none ∨ cond = some releaseCondition) := by
  unfold node_applies
  cases cond <;> simp

/-! ## Claim C4 -/

/-- C4: Macro expansion is an identity in all fallback cases: a string
with no `$(…)` token is returned unchanged; `$(UnknownMacro)` with
expansion enabled is returned unchanged; with expansion disabled every
string is returned unchanged; re-running expansion on such an output is
a no-op; and a known macro expanded first with expansion disabled and
then enabled yields first the unexpanded token, then the resolved value
(the project-directory entry of the target's table). -/
theorem C4_expansion_fallbacks (t : Target) (s : String) :
    (hasMacroToken s.data = false → expand_macros true t s = s)
    ∧ expand_macros true t "$(UnknownMacro)" = "$(UnknownMacro)"
    ∧ expand_macros false t s = s
    ∧ expand_macros false t (expand_macros false t s) = s
    ∧ expand_macros true t (expand_macros true t "$(UnknownMacro)") = "$(UnknownMacro)"
    ∧ expand_macros false t "$(ProjectDir)" = "$(ProjectDir)"
    ∧ expand_macros true t "$(ProjectDir)" = t.vsProjectDir := by
  have hu : expand_macros true t "$(UnknownMacro)" = "$(UnknownMacro)" := by
    have h1 : expand_macros true t ("$(" ++ "UnknownMacro" ++ ")")
        = expandMacro true t "UnknownMacro" :=
      expand_macros_one_token true t "UnknownMacro" (by decide)
    have h2 : Target.get_macro_expansion t "UnknownMacro" = none := by
      unfold Target.get_macro_expansion
      rw [if_neg (by decide), if_neg (by decide)]
    calc expand_macros true t "$(UnknownMacro)"
        = expandMacro true t "UnknownMacro" := h1
      _ = "$(UnknownMacro)" := by unfold expandMacro; rw [h2]; decide
  have hp : expand_macros true t "$(ProjectDir)" = t.vsProjectDir := by
    have h1 : expand_macros true t ("$(" ++ "ProjectDir" ++ ")")
        = expandMacro true t "ProjectDir" :=
      expand_macros_one_token true t "ProjectDir" (by decide)
    have h2 : Target.get_macro_expansion t "ProjectDir" = some t.vsProjectDir := by
      unfold Target.get_macro_expansion
      rw [if_pos rfl]
    calc expand_macros true t "$(ProjectDir)"
        = expandMacro true t "ProjectDir" := h1
      _ = t.vsProjectDir := by unfold expandMacro; rw [h2]; simp
  refine ⟨expand_macros_noToken true t s, hu, expand_macros_disabled t s, ?_, ?_, ?_, hp⟩
  · rw [expand_macros_disabled, expand_macros_disabled]
  · rw [hu, hu]
  · rw [expand_macros_disabled]

/-- Witness for C4 at a concrete target and token-free string. -/
theorem C4_expansion_fallbacks_witness :
    hasMacroToken ("plain text".data) = false
    ∧ expand_macros true (Target.init "/work/sub/app.vcxproj" (some "/work"))
        "plain text" = "plain text" :=
  ⟨by decide,
    (C4_expansion_fallbacks (Target.init "/work/sub/app.vcxproj" (some "/work"))
      "plain text").1 (by decide)⟩

/-! ## Claim C5 -/

/-- C5: List processing.  A semicolon-delimited property value is split
on semicolons into an ordered sequence, every item beginning with the
two-character prefix `%(` is dropped regardless of its position, each
retained item is macro-expanded and the order is preserved; in
particular `"A;B;%(C);D"` yields `[A, B, D]`, and placeholders are also
dropped in first/last position. -/
theorem C5_list_processing (expandOn : Bool) (t : Target) (tag : String) :
    process_list expandOn t (some (XmlNode.mk tag [] (some "A;B;%(C);D") []))
      = some ["A", "B", "D"]
    ∧ process_list expandOn t (some (XmlNode.mk tag [] (some "%(X);A;B;%(C)") []))
      = some ["A", "B"] := by
  constructor
  · show some (List.map (expand_macros expandOn t) ["A", "B", "D"]) = some ["A", "B", "D"]
    simp [expand_macros_noToken expandOn t "A" (by decide),
      expand_macros_noToken expandOn t "B" (by decide),
      expand_macros_noToken expandOn t "D" (by decide)]
  · show some (List.map (expand_macros expandOn t) ["A", "B"]) = some ["A", "B"]
    simp [expand_macros_noToken expandOn t "A" (by decide),
      expand_macros_noToken expandOn t "B" (by decide)]

/-! ## Claim C6 -/

/-- The (expectation, observed-text) pairs that a `check_expectations`
pass over `node` appends: one per expectation whose named child's
trimmed text differs from the expected literal. -/
def mismatches (node : XmlNode) (ns : String) (exps : List Expectation) :
    List (Expectation × String) :=
  exps.filterMap (fun ex =>
    ((XmlNode.find node (ns ++ ex.tag)).bind XmlNode.text).bind (fun txt =>
      if pyStrip txt ≠ ex.text then some (ex, pyStrip txt) else none))

/-- One step of an `Option`-valued left fold. -/
theorem foldlM_cons_option {α σ : Type} (f : σ → α → Option σ) (b : σ) (a : α)
    (l : List α) :
    List.foldlM f b (a :: l) = (f b a).bind (fun c => List.foldlM f c l) := rfl

/-- One step of `check_expectations` when the child exists with text. -/
theorem check_expectations_cons (node : XmlNode) (ns : String) (ex : Expectation)
    (exps : List Expectation) (t : Target) (e : XmlNode) (txt : String)
    (hfind : XmlNode.find node (ns ++ ex.tag) = some e)
    (htext : XmlNode.text e = some txt) :
    check_expectations node (ex :: exps) ns t
      = check_expectations node exps ns
          (if pyStrip txt ≠ ex.text then Target.add_unexpected t ex (pyStrip txt)
            else t) := by
  unfold check_expectations
  rw [foldlM_cons_option]
  simp only [hfind, Option.some_bind, htext, Option.map_some']

/-- When every expectation's child exists with text, the checker never
fails: it returns the target with exactly the mismatch pairs appended. -/
theorem check_expectations_total (node : XmlNode) (ns : String) :
    ∀ (exps : List Expectation) (t : Target),
      (∀ ex ∈ exps,
        ((XmlNode.find node (ns ++ ex.tag)).bind XmlNode.text).isSome = true) →
      check_expectations node exps ns t
        = some { t with unexpected := t.unexpected ++ mismatches node ns exps } := by
  intro exps
  induction exps with
  | nil =>
    intro t _
    simp [check_expectations, mismatches, List.foldlM]
  | cons ex exps ih =>
    intro t h
    have hex := h ex (by simp)
    cases hfind : XmlNode.find node (ns ++ ex.tag) with
    | none => simp [hfind] at hex
    | some e =>
      cases htext : XmlNode.text e with
      | none => simp [hfind, htext] at hex
      | some txt =>
        have hrest : ∀ ex2 ∈ exps,
            ((XmlNode.find node (ns ++ ex2.tag)).bind XmlNode.text).isSome = true := by
          intro ex2 hm
          exact h ex2 (by simp [hm])
        rw [check_expectations_cons node ns ex exps t e txt hfind htext]
        have hmis : mismatches node ns (ex :: exps)
            = (if pyStrip txt ≠ ex.text then [(ex, pyStrip txt)] else [])
              ++ mismatches node ns exps := by
          unfold mismatches
          simp only [List.filterMap_cons, hfind, Option.some_bind, htext]
          by_cases hne : pyStrip txt ≠ ex.text
          · rw [if_pos hne, if_pos hne]; simp
          · rw [if_neg hne, if_neg hne]; simp
        by_cases hne : pyStrip txt ≠ ex.text
        · rw [if_pos hne, ih (Target.add_unexpected t ex (pyStrip txt)) hrest,
            hmis, if_pos hne]
          simp [Target.add_unexpected]
        · rw [if_neg hne, ih t hrest, hmis, if_neg hne]
          simp

/-- A missing expectation child (or an empty element, whose text is
`None`) makes the checker fail fatally. -/
theorem check_expectations_missing (node : XmlNode) (ns : String) :
    ∀ (exps : List Expectation) (t : Target),
      (∃ ex ∈ exps, ((XmlNode.find node (ns ++ ex.tag)).bind XmlNode.text) = none) →
      check_expectations node exps ns t = none := by
  intro exps
  induction exps with
  | nil => intro t h; simp at h
  | cons ex exps ih =>
    intro t h
    cases hfind : XmlNode.find node (ns ++ ex.tag) with
    | none =>
      unfold check_expectations
      rw [foldlM_cons_option]
      simp [hfind]
    | some e =>
      cases htext : XmlNode.text e with
      | none =>
        unfold check_expectations
        rw [foldlM_cons_option]
        simp [hfind, htext]
      | some txt =>
        obtain ⟨ex2, hmem, hfail⟩ := h
        rcases List.mem_cons.mp hmem with heq | hmem'
        · subst heq
          simp [hfind, htext] at hfail
        · rw [check_expectations_cons node ns ex exps t e txt hfind htext]
          exact ih _ ⟨ex2, hmem', hfail⟩

/-- An `ItemDefinitionGroup` with a complete, all-matching `ClCompile`
block but no `Link` block. -/
def idgNoLink : XmlNode :=
  XmlNode.mk (nsTag "ItemDefinitionGroup") [] none [demoClCompile]

/-- The same group with a complete `Link` block present. -/
def idgFull : XmlNode :=
  XmlNode.mk (nsTag "ItemDefinitionGroup") [] none [demoClCompile, demoLink]

/-- A static-library target (other fields arbitrary but fixed). -/
def tStatic : Target :=
  { name := some "T", type := some TargetType.STATIC_LIBRARY,
    include_directories := [], compile_definitions := [],
    vsProjectDir := "", vsSolutionDir := none, unexpected := [] }

/-- The same target with SharedLibrary kind. -/
def tShared : Target :=
  { tStatic with type := some TargetType.SHARED_LIBRARY }

/-- C6: Expectation checking.  (1) When every named property child
exists with text, the checker never raises: it returns the target with
exactly the (expectation, trimmed-observed-text) mismatch pairs appended
to its diagnostic list.  (2) A missing property child (or one with no
text) is a fatal lookup failure.  (3–5) The Link-block expectations are
consulted only when the target's kind is not StaticLibrary: on a group
with no Link block, a static target processes fine while a shared one
dies on the Link lookup; with a Link block present the shared target
processes fine too. -/
theorem C6_expectation_checking :
    (∀ (node : XmlNode) (ns : String) (exps : List Expectation) (t : Target),
        (∀ ex ∈ exps,
          ((XmlNode.find node (ns ++ ex.tag)).bind XmlNode.text).isSome = true) →
        check_expectations node exps ns t
          = some { t with unexpected := t.unexpected ++ mismatches node ns exps })
    ∧ (∀ (node : XmlNode) (ns : String) (exps : List Expectation) (t : Target),
        (∃ ex ∈ exps, ((XmlNode.find node (ns ++ ex.tag)).bind XmlNode.text) = none) →
        check_expectations node exps ns t = none)
    ∧ process_node true nsP tStatic idgNoLink
        = some { tStatic with compile_definitions := ["FOO", "BAR"] }
    ∧ process_node true nsP tShared idgNoLink = none
    ∧ process_node true nsP tShared idgFull
        = some { tShared with compile_definitions := ["FOO", "BAR"] } :=
  ⟨check_expectations_total, check_expectations_missing, by decide, by decide, by decide⟩

/-- A `ClCompile` block with one mismatching property (`Optimization`
reads " Disabled " instead of "MaxSpeed"): concrete instance of C6's
first part. -/
def clMismatch : XmlNode :=
  XmlNode.mk (nsTag "ClCompile") [] none
    [ xmlLeaf "Optimization" " Disabled "
    , xmlLeaf "RuntimeLibrary" "MultiThreadedDLL"
    , xmlLeaf "PrecompiledHeader" "" ]

/-- Witness for C6: on a block with one mismatch, the checker returns
the target with that one (expectation, trimmed text) pair appended, and
does not fail. -/
theorem C6_expectation_checking_witness :
    check_expectations clMismatch cl_expectations nsP tStatic
      = some { tStatic with unexpected :=
          tStatic.unexpected ++ mismatches clMismatch nsP cl_expectations } :=
  C6_expectation_checking.1 clMismatch nsP cl_expectations tStatic (by decide)

/-! ## Claim C7 -/

/-- C7: The per-target macro table.  With expansion enabled,
`$(ProjectDir)` expands to the project file's containing directory with
a trailing path separator (the empty string when that directory is
empty); for a project owned by a solution, `$(SolutionDir)` expands to
the solution's directory under the same trailing-separator rule; for a
standalone project (no owning solution), `$(SolutionDir)` has no
expansion and the literal token is left in place. -/
theorem C7_macro_table (p sd : String) :
    expand_macros true (Target.init p none) "$(ProjectDir)"
      = (if dirname p = "" then "" else dirname p ++ "\\")
    ∧ expand_macros true (Target.init p (some sd)) "$(ProjectDir)"
      = (if dirname p = "" then "" else dirname p ++ "\\")
    ∧ expand_macros true (Target.init p (some sd)) "$(SolutionDir)"
      = (if sd = "" then "" else sd ++ "\\")
    ∧ expand_macros true (Target.init p none) "$(SolutionDir)" = "$(SolutionDir)" := by
  have hproj : ∀ (t : Target), expand_macros true t "$(ProjectDir)" = t.vsProjectDir := by
    intro t
    have h1 : expand_macros true t ("$(" ++ "ProjectDir" ++ ")")
        = expandMacro true t "ProjectDir" :=
      expand_macros_one_token true t "ProjectDir" (by decide)
    have h2 : Target.get_macro_expansion t "ProjectDir" = some t.vsProjectDir := by
      unfold Target.get_macro_expansion
      rw [if_pos rfl]
    calc expand_macros true t "$(ProjectDir)"
        = expandMacro true t "ProjectDir" := h1
      _ = t.vsProjectDir := by unfold expandMacro; rw [h2]; simp
  have hsol : ∀ (t : Target), expandMacro true t "SolutionDir"
      = (match t.vsSolutionDir with
          | some d => d
          | none => "$(SolutionDir)") := by
    intro t
    have h2 : Target.get_macro_expansion t "SolutionDir" = t.vsSolutionDir := by
      unfold Target.get_macro_expansion
      rw [if_neg (by decide), if_pos rfl]
    unfold expandMacro
    rw [h2]
    cases t.vsSolutionDir <;> simp
  have hone : ∀ (t : Target), expand_macros true t "$(SolutionDir)"
      = expandMacro true t "SolutionDir" :=
    fun t => expand_macros_one_token true t "SolutionDir" (by decide)
  refine ⟨?_, ?_, ?_, ?_⟩
  · rw [hproj]
    show mpath (dirname p) = _
    unfold mpath
    by_cases h : dirname p = "" <;> simp [h]
  · rw [hproj]
    show mpath (dirname p) = _
    unfold mpath
    by_cases h : dirname p = "" <;> simp [h]
  · rw [hone, hsol]
    show mpath sd = _
    unfold mpath
    by_cases h : sd = "" <;> simp [h]
  · rw [hone, hsol]
    simp [Target.init]

/-! ## Claim C8 -/

/-- The target one project file contributes: parse lookup then walk. -/
def project_target_of (fs : FS) (expandOn : Bool) (pi : String × Option String) :
    Option Target :=
  (FS.findProj fs pi.1).bind (fun root => process_project_target expandOn root pi)

/-- `read_project` appends exactly the project's own target. -/
theorem read_project_eq (fs : FS) (expandOn : Bool) (ts : List Target)
    (pi : String × Option String) :
    read_project fs expandOn ts pi
      = (project_target_of fs expandOn pi).map (fun t => ts ++ [t]) := by
  unfold read_project project_target_of process_project
  cases FS.findProj fs pi.1 <;> simp

/-- The reading loop only ever appends: a successful fold over `ps`
extends the accumulator with one target per project, in order. -/
theorem foldlM_read_project_structure (fs : FS) (expandOn : Bool) :
    ∀ (ps : List (String × Option String)) (acc ts : List Target),
      List.foldlM (read_project fs expandOn) acc ps = some ts →
      ∃ suffix : List Target, ts = acc ++ suffix ∧ suffix.length = ps.length ∧
        ∀ (i : Nat) (hi : i < ps.length) (hi2 : i < suffix.length),
          project_target_of fs expandOn (ps.get ⟨i, hi⟩)
            = some (suffix.get ⟨i, hi2⟩) := by
  intro ps
  induction ps with
  | nil =>
    intro acc ts h
    simp [List.foldlM] at h
    refine ⟨[], by simp [← h], by simp, ?_⟩
    intro i hi
    simp at hi
  | cons p ps ih =>
    intro acc ts h
    rw [foldlM_cons_option, read_project_eq] at h
    cases hpt : project_target_of fs expandOn p with
    | none => rw [hpt] at h; simp at h
    | some t =>
      rw [hpt] at h
      simp only [Option.map_some', Option.some_bind] at h
      obtain ⟨suffix, hts, hlen, hget⟩ := ih (acc ++ [t]) ts h
      refine ⟨t :: suffix, ?_, by simp [hlen], ?_⟩
      · rw [hts]; simp
      · intro i hi hi2
        cases i with
        | zero => simpa using hpt
        | succ j =>
          have hj : j < ps.length := by simpa using hi
          have hj2 : j < suffix.length := by simpa using hi2
          simpa using hget j hj hj2

/-- C8: Order invariant.  For a successful run, the accumulated target
list mirrors the gathered project list position by position: one target
per project file, none removed, with solution-referenced projects taken
in solution-file line order (`slnProjectsLoop` keeps exactly the
matching lines, in order) and inputs in command-line order (the
recursion of `gather_input_files`). -/
theorem C8_target_order (expandOn : Bool) (ap : String → String) (fs : FS)
    (inputs : List String) (ps : List (String × Option String)) (ts : List Target)
    (hg : gather_input_files ap fs inputs = some ps)
    (hf : List.foldlM (read_project fs expandOn) [] ps = some ts) :
    (∀ (d : String) (lines : List String),
      slnProjectsLoop d lines
        = lines.filterMap (fun line => (matchSlnLine line).map (pjoin d)))
    ∧ ts.length = ps.length
    ∧ ∀ (i : Nat) (hi : i < ps.length) (hi2 : i < ts.length),
        project_target_of fs expandOn (ps.get ⟨i, hi⟩) = some (ts.get ⟨i, hi2⟩) := by
  obtain ⟨suffix, hts, hlen, hget⟩ :=
    foldlM_read_project_structure fs expandOn ps [] ts hf
  simp only [List.nil_append] at hts
  subst hts
  refine ⟨?_, hlen, hget⟩
  intro d lines
  induction lines with
  | nil => simp [slnProjectsLoop]
  | cons line rest ihl =>
    cases hm : matchSlnLine line <;> simp [slnProjectsLoop, hm, ihl]

/-- The gathered project list of the end-to-end scenario. -/
def demoPs : List (String × Option String) :=
  [("/work/sub/app.vcxproj", some "/work")]

/-- The one target the end-to-end scenario builds. -/
def demoTarget : Target :=
  { name := some "App", type := some TargetType.SHARED_LIBRARY,
    include_directories := [], compile_definitions := ["FOO", "BAR"],
    vsProjectDir := "/work/sub\\", vsSolutionDir := some "/work\\",
    unexpected := [] }

/-- Witness for C8 on the end-to-end scenario's run. -/
theorem C8_target_order_witness :
    (∀ (d : String) (lines : List String),
      slnProjectsLoop d lines
        = lines.filterMap (fun line => (matchSlnLine line).map (pjoin d)))
    ∧ ([demoTarget] : List Target).length = demoPs.length
    ∧ ∀ (i : Nat) (hi : i < demoPs.length)
        (hi2 : i < ([demoTarget] : List Target).length),
        project_target_of demoFS true (demoPs.get ⟨i, hi⟩)
          = some (([demoTarget] : List Target).get ⟨i, hi2⟩) :=
  C8_target_order true (fun p => p) demoFS ["/work/demo.sln"] demoPs [demoTarget]
    (by decide) (by decide)

/-! ## Claim C9 -/

/-- Two targets sharing the name "App" but with different
compile-definition lists. -/
def t9a : Target :=
  { name := some "App", type := some TargetType.SHARED_LIBRARY,
    include_directories := [], compile_definitions := ["FOO"],
    vsProjectDir := "", vsSolutionDir := none, unexpected := [] }

def t9b : Target :=
  { t9a with compile_definitions := ["BAR"] }

/-- C9 counterexample: with two targets of the same name, the emitted
output is NOT the output of the later target alone — the earlier
target's declarations are also emitted, so the later one does not "win".
(The earlier block, `add_library(App SHARED)` + FOO, stands in full in
front of the later one.) -/
theorem C9_counterexample :
    t9a.name = t9b.name
    ∧ ¬ (write_output [t9a, t9b] = write_output [t9b]) := by
  decide

/-- C9 (amended): duplicate names are not deduplicated and nothing is
overwritten at emission: the emitter writes one block per target in
list order, so for two targets with the same name the output is the
earlier target's block followed by the later target's block. -/
theorem C9_duplicate_names_both_emitted (t1 t2 : Target)
    (h : t1.name = t2.name) :
    write_output [t1, t2] = write_target t1 ++ write_target t2 := by
  simp [write_output, String.append_empty]

/-- Witness for C9's amended statement at the concrete duplicate pair. -/
theorem C9_duplicate_names_witness :
    t9a.name = t9b.name
    ∧ write_output [t9a, t9b] = write_target t9a ++ write_target t9b :=
  ⟨by decide, C9_duplicate_names_both_emitted t9a t9b (by decide)⟩

/-! ## Claim C10 -/

/-- An `ItemDefinitionGroup` with the given include-directory and
preprocessor-definition texts (expectations all matching, `Link`
present). -/
def idg (inc defs : String) : XmlNode :=
  XmlNode.mk (nsTag "ItemDefinitionGroup") [] none
    [ XmlNode.mk (nsTag "ClCompile") [] none
        [ xmlLeaf "AdditionalIncludeDirectories" inc
        , xmlLeaf "PreprocessorDefinitions" defs
        , xmlLeaf "Optimization" "MaxSpeed"
        , xmlLeaf "RuntimeLibrary" "MultiThreadedDLL"
        , xmlLeaf "PrecompiledHeader" "" ]
    , demoLink ]

/-- A project with two applying `ItemDefinitionGroup` children: the
first carries include "I1" and definitions "A1;B1", the second include
"I2;I3" and definitions "A2". -/
def rootTwoGroups : XmlNode :=
  XmlNode.mk (nsTag "Project") [] none
    [ XmlNode.mk (nsTag "PropertyGroup") [("Label", "Globals")] none
        [xmlLeaf "ProjectName" "App"]
    , XmlNode.mk (nsTag "PropertyGroup") [("Label", "Configuration")] none
        [xmlLeaf "ConfigurationType" "DynamicLibrary"]
    , idg "I1" "A1;B1"
    , idg "I2;I3" "A2" ]

/-- C10: Each visited `ItemDefinitionGroup` assigns (does not append to)
the target's `include_directories` and `compile_definitions`: after
walking a project with two applying groups, the fields equal the lists
parsed from the last group only (["I2", "I3"] and ["A2"]), not a
concatenation across groups (not ["I1", "I2", "I3"] / ["A1", "B1", "A2"]). -/
theorem C10_last_group_overwrites :
    process_project_target true rootTwoGroups ("/w/app.vcxproj", none)
      = some { name := some "App", type := some TargetType.SHARED_LIBRARY,
               include_directories := ["I2", "I3"], compile_definitions := ["A2"],
               vsProjectDir := "/w\\", vsSolutionDir := none, unexpected := [] } := by
  decide
